import Mathlib

/-!
Verification development for the SASAutodoc repository.

The Python source (app.py, document_generator.py) is shallowly embedded:
pure text-processing functions become Lean functions over `List Char`
(Python `str` values), dictionaries become association lists, and code
whose failure surfaces as a raised exception is modelled with `Except`.
External collaborators (the model-inference client) are modelled as
oracle function parameters returning `Option` (with `none` standing for
a failed call, which the Python code catches).
-/

namespace SASAutodoc

/-- Whitespace as recognized by Python `str.strip` and the regex class
backslash-s (ASCII range). -/
def pyIsSpace (c : Char) : Bool :=
  c = ' ' || c = '\t' || c = '\n' || c = '\r' || c = Char.ofNat 11 || c = Char.ofNat 12

/-- Word characters of the regex class backslash-w (ASCII range). -/
def isWordChar (c : Char) : Bool :=
  (('a' ≤ c && c ≤ 'z') || ('A' ≤ c && c ≤ 'Z') || ('0' ≤ c && c ≤ '9') || c = '_')

/-- Longest prefix of the list satisfying `p`, paired with the rest. -/
def spanWhile (p : Char → Bool) : List Char → List Char × List Char
  | [] => ([], [])
  | c :: cs =>
    if p c then
      let r := spanWhile p cs
      (c :: r.1, r.2)
    else ([], c :: cs)

/-- Remove trailing characters satisfying `pyIsSpace` (Python `rstrip`). -/
def stripTrail : List Char → List Char
  | [] => []
  | c :: cs =>
    let r := stripTrail cs
    if r = [] && pyIsSpace c then [] else c :: r

/-- Python `str.strip`: drop leading and trailing whitespace. -/
def pyStrip (l : List Char) : List Char :=
  stripTrail (l.dropWhile pyIsSpace)

/-- Remove trailing `:` characters (Python `rstrip` with a colon set). -/
def stripTrailColon : List Char → List Char
  | [] => []
  | c :: cs =>
    let r := stripTrailColon cs
    if r = [] && c = ':' then [] else c :: r

/-- Lowercase every character (Python `str.lower`, ASCII behaviour). -/
def toLowerL (l : List Char) : List Char :=
  l.map Char.toLower

/-- Does `l` start with `pre` (Python `str.startswith`)? -/
def leadsWith : List Char → List Char → Bool
  | _, [] => true
  | [], _ :: _ => false
  | c :: cs, p :: ps => c = p && leadsWith cs ps

/-- Does `l` contain `sub` as a contiguous substring (Python `in`)? -/
def containsSub : List Char → List Char → Bool
  | l, sub =>
    match l with
    | [] => sub = []
    | _ :: cs => leadsWith l sub || containsSub cs sub

/-- Split on every occurrence of `sep` (Python `str.split(sep)`),
accumulator-based worker. -/
def splitAllOnAux (sep : Char) : List Char → List Char → List (List Char)
  | [], acc => [acc.reverse]
  | c :: cs, acc =>
    if c = sep then acc.reverse :: splitAllOnAux sep cs []
    else splitAllOnAux sep cs (c :: acc)

/-- Split on every occurrence of `sep`; always returns at least one piece. -/
def splitAllOn (sep : Char) (l : List Char) : List (List Char) :=
  splitAllOnAux sep l []

/-- Join pieces with a separator (Python `sep.join`). -/
def intercalateL (sep : List Char) : List (List Char) → List Char
  | [] => []
  | [x] => x
  | x :: xs => x ++ sep ++ intercalateL sep xs

/-- Append a newline to every line and concatenate; this is the shape in
which `extract_macros` accumulates its capture buffer. -/
def joinNl (ls : List (List Char)) : List Char :=
  ls.foldr (fun l acc => l ++ '\n' :: acc) []

/-- Section-body values of the dynamic documentation-content dictionary:
plain strings, the Usage Examples list, the Parameters table dictionary,
the Key Features dictionary (which carries a `subsections` member), and
Python `None`. -/
inductive SVal where
  | vstr (s : String)
  | vlist (xs : List String)
  | vtable (headers : List String) (rows : List (List String))
  | vfeat (main : String) (subs : List (String × String))
  | vnone
deriving DecidableEq

/-- Python truthiness of the section values: empty strings and empty lists
are falsy; the two dictionary shapes always carry keys, hence truthy;
`None` is falsy. -/
def truthy : SVal → Bool
  | .vstr s => s ≠ ""
  | .vlist xs => xs ≠ []
  | .vtable _ _ => true
  | .vfeat _ _ => true
  | .vnone => false

/-- Single quote character, used by the Python `repr` of strings. -/
def quoteChar : Char := Char.ofNat 39

/-- Opening brace character (Python `repr` of dictionaries). -/
def lbraceChar : Char := Char.ofNat 123

/-- Closing brace character (Python `repr` of dictionaries). -/
def rbraceChar : Char := Char.ofNat 125

/-- Python `repr` of a string value (single-quoted). -/
def reprStr (s : String) : List Char :=
  quoteChar :: s.data ++ [quoteChar]

/-- Python `repr` of a list of strings. -/
def reprStrList (xs : List String) : List Char :=
  '[' :: intercalateL ", ".data (xs.map reprStr) ++ [']']

/-- Python `str` coercion of a section value, as the f-string renderer and
the fallthrough branch of `format_content` would apply it.  Strings pass
through, `None` prints as `None`, containers print as their `repr`. -/
def pyStrSVal : SVal → List Char
  | .vstr s => s.data
  | .vnone => "None".data
  | .vlist xs => reprStrList xs
  | .vtable h r =>
    lbraceChar :: reprStr "table_headers" ++ ": ".data ++ reprStrList h
      ++ ", ".data ++ reprStr "table_rows" ++ ": ".data
      ++ ('[' :: intercalateL ", ".data (r.map reprStrList) ++ [']'])
      ++ [rbraceChar]
  | .vfeat m subs =>
    lbraceChar :: reprStr "main_section" ++ ": ".data ++ reprStr m
      ++ ", ".data ++ reprStr "subsections" ++ ": ".data
      ++ ('[' :: intercalateL ", ".data
            (subs.map fun ts =>
              lbraceChar :: reprStr "title" ++ ": ".data ++ reprStr ts.1
                ++ ", ".data ++ reprStr "description" ++ ": ".data
                ++ reprStr ts.2 ++ [rbraceChar]) ++ [']'])
      ++ [rbraceChar]

/-- Does the stripped line open a numbered list item?  This is the
anchored regex match of one-or-more digits, a dot, then a whitespace
character (document_generator.py line 425). -/
def numberedStart (l : List Char) : Bool :=
  match spanWhile Char.isDigit l with
  | (ds, '.' :: c :: _) => ds ≠ [] && pyIsSpace c
  | _ => false

/-- State of the line classifier inside `format_content`
(document_generator.py lines 388-391). -/
structure FCState where
  formatted : List (List Char)
  in_example : Bool
  in_numbered : Bool
  in_code : Bool
deriving DecidableEq

/-- One iteration of the `for line in lines` loop of `format_content`
(document_generator.py lines 393-436), translated branch for branch.
Note the code-block test is applied to the already-stripped line, exactly
as in the source. -/
def fcStep (st : FCState) (line : List Char) : FCState :=
  let stripped := pyStrip line
  if stripped = [] ∧ st.formatted = [] then st
  else if containsSub stripped "Example:".data || containsSub stripped "Usage:".data then
    if !st.in_example then
      { st with formatted := st.formatted ++ ['\n' :: stripped], in_example := true }
    else st
  else if leadsWith stripped "    ".data then
    { st with formatted := st.formatted ++ ["    ".data ++ stripped], in_code := true }
  else
    let st1 := { st with in_code := false }
    if leadsWith stripped "- ".data then
      { st1 with formatted := st1.formatted ++ [stripped] }
    else if numberedStart stripped then
      { st1 with formatted := st1.formatted ++ [stripped], in_numbered := true }
    else
      let st2 := { st1 with in_numbered := false }
      if st2.in_example then
        { st2 with formatted := st2.formatted ++ [stripped] }
      else
        { st2 with formatted := st2.formatted ++ [stripped] }

/-- Run the line classifier over a text: split on newlines, fold the loop
body from the all-clear initial state, rejoin with newlines. -/
def classifyLines (text : List Char) : List Char :=
  intercalateL ['\n'] ((splitAllOn '\n' text).foldl fcStep ⟨[], false, false, false⟩).formatted

/-- document_generator.py `format_content` (lines 362-442): lists join
their stripped elements with blank lines; the Key Features dictionary
becomes a lead text plus bullet/indented-description pairs; everything
else is coerced to text and run through the line classifier. -/
def format_content (text : SVal) : String :=
  match text with
  | .vlist xs =>
    ⟨intercalateL "\n\n".data (xs.map fun e => pyStrip e.data)⟩
  | .vfeat main subs =>
    ⟨pyStrip (pyStrip main.data ++ '\n' ::
      (subs.foldr (fun td acc =>
        "- ".data ++ td.1.data ++ '\n' :: "  ".data ++ td.2.data ++ '\n' :: acc) []))⟩
  | v => ⟨classifyLines (pyStrSVal v)⟩

/-! ## app.py: structural extractor -/

/-- Attempt of the call regex (percent, group of one-or-more word chars,
optional whitespace, opening parenthesis — app.py line 54) at the head of
the list.  Greedy runs with backtracking collapse to maximal runs here:
a shorter word run ends at a word character, which neither the whitespace
star nor the literal parenthesis can match, and a shorter whitespace run
ends at a whitespace character, which the parenthesis cannot match.
Returns the captured group and the rest after the whole match. -/
def matchCallAt : List Char → Option (List Char × List Char)
  | [] => none
  | c :: cs =>
    if c = '%' then
      let w := spanWhile isWordChar cs
      if w.1 = [] then none
      else
        let rest := (spanWhile pyIsSpace w.2).2
        if rest.head? = some '(' then some (w.1, rest.tail) else none
    else none

/-- Scan of `re.findall` for the call pattern: try each start position
left to right, continue after the end of a match.  Matches are disjoint
(a match contains a single percent sign, at its start), so advancing past
a match finds the same occurrences the Python scanner does.  The fuel
argument (instantiated with the input length) only serves termination. -/
def findallCallsAux : Nat → List Char → List (List Char)
  | 0, _ => []
  | _ + 1, [] => []
  | fuel + 1, c :: cs =>
    match matchCallAt (c :: cs) with
    | some (w, rest) => w :: findallCallsAux fuel rest
    | none => findallCallsAux fuel cs

/-- Python `list(set(...))` modelled as first-occurrence deduplication
(set iteration order is not otherwise specified, and no caller of
`find_macro_calls` depends on the order). -/
def pyDedup : List (List Char) → List (List Char) :=
  fun l => l.foldl (fun acc x => if x ∈ acc then acc else acc ++ [x]) []

/-- app.py `find_macro_calls` (lines 51-61): all matches of the call
pattern, deduplicated, each re-prefixed with a percent sign and joined
with a comma; the empty string when there are none. -/
def find_macro_calls (sas_code : List Char) : String :=
  let macro_calls := findallCallsAux sas_code.length sas_code
  let uniq := pyDedup macro_calls
  if uniq = [] then "" else ⟨intercalateL ", ".data (uniq.map fun m => '%' :: m)⟩

/-- Lazy group of the parameter-list regex: the shortest run of
non-newline characters up to a closing parenthesis followed by a
semicolon (app.py line 91).  `none` when the rest of the input holds a
newline or ends before that terminator, in which case the regex engine
abandons this start position. -/
def lazyUpTo : List Char → Option (List Char)
  | ')' :: ';' :: _ => some []
  | '\n' :: _ => none
  | [] => none
  | c :: cs => (lazyUpTo cs).map (fun g => c :: g)

/-- Attempt of the macro-definition regex (percent-macro literal,
case-insensitive, one-or-more whitespace, one-or-more word characters,
opening parenthesis, lazy group, closing parenthesis and semicolon) at
the head of the list.  As in `matchCallAt`, the greedy pluses collapse
to maximal runs. -/
def tryMacroDefAt (l : List Char) : Option (List Char) :=
  if toLowerL (l.take 6) = "%macro".data then
    let sp := spanWhile pyIsSpace (l.drop 6)
    if sp.1 = [] then none
    else
      let w := spanWhile isWordChar sp.2
      if w.1 = [] then none
      else
        match w.2 with
        | '(' :: rest => lazyUpTo rest
        | _ => none
  else none

/-- `re.search` for the macro-definition pattern: leftmost match wins;
returns the captured parameter-list text. -/
def searchMacroDef : List Char → Option (List Char)
  | [] => none
  | c :: cs =>
    match tryMacroDefAt (c :: cs) with
    | some g => some g
    | none => searchMacroDef cs

/-- The parameter entries of the first macro definition: the captured
group split on every comma, each piece stripped, empty pieces dropped
(app.py lines 91-96). -/
def parsedParams (sas_code : List Char) : List (List Char) :=
  match searchMacroDef sas_code with
  | none => []
  | some params_str =>
    ((splitAllOn ',' params_str).map pyStrip).filter (fun p => p ≠ [])

/-- Name/default split of one parameter entry (app.py lines 100-102,
109): Python `split` on every equals sign, the name is piece zero
stripped, the default is piece one stripped — the text between the first
and the second equals sign — and the `None` sentinel replaces an absent
or empty default. -/
def parseEntry (param : List Char) : String × String :=
  let parts := splitAllOn '=' param
  let name : String := ⟨pyStrip (parts.headD [])⟩
  let defv : List Char :=
    match parts with
    | _ :: d :: _ => pyStrip d
    | _ => []
  (name, if defv = [] then "None" else ⟨defv⟩)

/-- app.py `generate_parameter_description` (lines 63-86).  The model
call is an oracle from parameter name and code to an optional
description; `none` covers both a raised exception and a response
without a description field, and falls back to the generic templated
sentence. -/
def generate_parameter_description (oracle : String → List Char → Option String)
    (param_name : String) (macro_code : List Char) : String :=
  match oracle param_name macro_code with
  | some d => d
  | none => "Parameter " ++ param_name ++ " for the macro"

/-- app.py `extract_macro_parameters` (lines 88-116): one descriptor
(name, default, description) per parsed entry, the description obtained
per parameter from the enrichment oracle. -/
def extract_macro_parameters (oracle : String → List Char → Option String)
    (sas_code : List Char) : List (String × String × String) :=
  (parsedParams sas_code).map fun param =>
    let nd := parseEntry param
    (nd.1, nd.2, generate_parameter_description oracle nd.1 sas_code)

/-- Does the stripped, lowercased line contain the macro-opening token
(app.py line 536)? -/
def hasMacTok (line : List Char) : Bool :=
  containsSub (toLowerL (pyStrip line)) "%macro".data

/-- Does the stripped, lowercased line contain the macro-closing token
(app.py line 543)? -/
def hasMendTok (line : List Char) : Bool :=
  containsSub (toLowerL (pyStrip line)) "%mend".data

/-- Loop state of `extract_macros` (app.py lines 528-531). -/
structure EMState where
  current : List Char
  inMac : Bool
  level : Int
  macros : List (List Char)
deriving DecidableEq

/-- One iteration of the `for line in ...` loop of `extract_macros`
(app.py lines 533-554), translated branch for branch: an opening token
raises the depth and starts capture when none is active; a closing token
lowers the depth, is appended to an active capture, and flushes the
capture when the depth returns to zero; other lines are appended to an
active capture. -/
def emStep (st : EMState) (line : List Char) : EMState :=
  let hasMac := hasMacTok line
  let hasMend := hasMendTok line
  let st1 := if hasMac then { st with level := st.level + 1 } else st
  if hasMac ∧ ¬ st.inMac then
    { st1 with inMac := true, current := line ++ ['\n'] }
  else if hasMend then
    let st2 := { st1 with level := st1.level - 1 }
    if st2.inMac then
      let cur := st2.current ++ line ++ ['\n']
      if st2.level = 0 then
        { st2 with macros := st2.macros ++ [pyStrip cur], inMac := false, current := [] }
      else { st2 with current := cur }
    else st2
  else if st1.inMac then
    { st1 with current := st1.current ++ line ++ ['\n'] }
  else st1

/-- Worker of `extract_macros` over an already-split line list; a capture
still active at the end of input is flushed as the final element
(app.py lines 556-557). -/
def extract_macros_lines (lines : List (List Char)) : List (List Char) :=
  let st := lines.foldl emStep ⟨[], false, 0, []⟩
  if st.inMac ∧ st.current ≠ [] then st.macros ++ [pyStrip st.current] else st.macros

/-- Split a text into lines at every newline (Python `split('\n')`). -/
def splitLinesL (s : List Char) : List (List Char) :=
  splitAllOn '\n' s

/-- app.py `extract_macros` (lines 524-563). -/
def extract_macros (sas_code : List Char) : List (List Char) :=
  extract_macros_lines (splitLinesL sas_code)

/-- app.py `create_parameters_table` (lines 465-485): HTML table for the
parameters dictionary.  Non-dictionary values and empty header or row
lists fall back to the no-parameters paragraph; otherwise one header
cell per header and one data cell per row entry are emitted with no
validation of row lengths. -/
def create_parameters_table (parameters : SVal) : String :=
  match parameters with
  | .vtable headers rows =>
    if headers = [] ∨ rows = [] then "<p>No parameters specified</p>"
    else
      "<table class=\"table table-bordered\">\n        <thead><tr>"
        ++ String.join (headers.map fun h => "<th>" ++ h ++ "</th>")
        ++ "</tr></thead><tbody>"
        ++ String.join (rows.map fun row =>
             "<tr>" ++ String.join (row.map fun cell => "<td>" ++ cell ++ "</td>") ++ "</tr>")
        ++ "</tbody></table>"
  | .vfeat _ _ => "<p>No parameters specified</p>"
  | _ => "<p>No parameters specified</p>"

/-! ## document_generator.py: canonical schema and renderers -/

/-- The canonical content mapping: a Python dictionary from section-name
strings to section values, modelled as an association list in insertion
order with lookups resolving to the first occurrence. -/
abbrev Doc := List (String × SVal)

/-- First-occurrence lookup (Python `dict` subscript / `get`). -/
def pyLookup : Doc → String → Option SVal
  | [], _ => none
  | kv :: rest, k => if kv.1 = k then some kv.2 else pyLookup rest k

/-- Key membership (Python `k in d`). -/
def memKey : Doc → String → Bool
  | [], _ => false
  | kv :: rest, k => kv.1 = k || memKey rest k

/-- Truthiness of the value stored under a key; false when absent. -/
def truthyKey (content : Doc) (k : String) : Bool :=
  match pyLookup content k with
  | some v => truthy v
  | none => false

/-- document_generator.py lines 22-32. -/
def SECTION_ORDER : List String :=
  ["Overview", "Syntax", "Parameters", "Key Features and Functionalities",
   "Usage Examples", "Return Values", "Error Handling", "Version History", "Summary"]

/-- document_generator.py `_process_section_name` (lines 136-138): strip
trailing colons, lowercase. -/
def _process_section_name (sect : String) : String :=
  ⟨toLowerL (stripTrailColon sect.data)⟩

/-- Observable output blocks of a renderer: the document title, a section
heading, a filled table (header row first), a plain paragraph, a
code-styled paragraph, an inter-section spacer, and a slide body text. -/
inductive RItem where
  | title
  | heading (s : String)
  | tableItem (cells : List (List String))
  | para (s : String)
  | codepara (s : String)
  | spacer
  | slideText (s : String)
deriving DecidableEq

/-- Render the sections of a list in order, concatenating their output
and propagating the first raised exception. -/
def renderSections (f : String → Except String (List RItem)) :
    List String → Except String (List RItem)
  | [] => .ok []
  | s :: rest =>
    match f s with
    | .error e => .error e
    | .ok items =>
      match renderSections f rest with
      | .error e => .error e
      | .ok more => .ok (items ++ more)

/-- Fill table rows into a table of `ncols` columns, as python-docx and
python-pptx cell assignment behaves: a row longer than the column count
raises an index error mid-render; a shorter row leaves the remaining
cells at their empty default. -/
def fillRows (ncols : Nat) : List (List String) → Except String (List (List String))
  | [] => .ok []
  | row :: rest =>
    if row.length > ncols then .error "cell index out of range"
    else
      match fillRows ncols rest with
      | .error e => .error e
      | .ok rs => .ok ((row ++ List.replicate (ncols - row.length) "") :: rs)

/-- Paragraph splitting of a formatted section body in `_create_pdf`
(lines 237-245): blank lines are skipped, a four-space-indented line
becomes a stripped code paragraph, anything else a plain paragraph. -/
def pdfBody (v : SVal) : List RItem :=
  (splitAllOn '\n' (format_content v).data).filterMap fun para =>
    if pyStrip para = [] then none
    else if leadsWith para "    ".data then some (.codepara ⟨pyStrip para⟩)
    else some (.para ⟨para⟩)

/-- Paragraph emission of a formatted section body in `_create_rtf`
(lines 327-346): every line becomes a paragraph, code-styled and
stripped when four-space-indented. -/
def rtfParas (v : SVal) : List RItem :=
  (splitAllOn '\n' (format_content v).data).map fun para =>
    if leadsWith para "    ".data then .codepara ⟨pyStrip para⟩
    else .para ⟨para⟩

/-- One section of `_create_pdf` (lines 202-248): skipped when absent or
falsy; the Parameters section requires the table dictionary (any other
value raises on subscripting), builds the header-plus-rows data, and
then applies the TableStyle of lines 221-234 — whose command list
includes WORDWRAP and ROWHEIGHTS, commands unknown to the PDF library,
which rejects the first of them with a ValueError.  A truthy Parameters
section therefore always raises and no PDF artifact is produced; other
sections emit their formatted paragraphs followed by a spacer. -/
def pdfSectionItems (content : Doc) (sect : String) : Except String (List RItem) :=
  match pyLookup content sect with
  | none => .ok []
  | some v =>
    if truthy v then
      if sect = "Parameters" then
        match v with
        | .vtable _ _ => .error "Unknown cell style"
        | _ => .error "table_headers"
      else .ok ([.heading sect] ++ pdfBody v ++ [.spacer])
    else .ok []

/-- document_generator.py `_create_pdf` (lines 140-254), reduced to its
observable output trace: the title, then the sections in fixed order. -/
def _create_pdf (content : Doc) : Except String (List RItem) :=
  match renderSections (pdfSectionItems content) SECTION_ORDER with
  | .error e => .error e
  | .ok items => .ok (.title :: items)

/-- One section slide of `create_presentation` (lines 67-97): skipped
when absent or falsy; a Parameters table dictionary is filled cell by
cell (guarded by an isinstance check, so a non-dictionary truthy value
yields a bare heading slide, while the Key Features dictionary lacks the
table keys and raises); other sections place the formatted text on the
slide body. -/
def pptxSectionItems (content : Doc) (sect : String) : Except String (List RItem) :=
  match pyLookup content sect with
  | none => .ok []
  | some v =>
    if truthy v then
      if sect = "Parameters" then
        match v with
        | .vtable h r =>
          match fillRows h.length r with
          | .error e => .error e
          | .ok rows => .ok [.heading sect, .tableItem (h :: rows)]
        | .vfeat _ _ => .error "table_rows"
        | _ => .ok [.heading sect]
      else .ok [.heading sect, .slideText (format_content v)]
    else .ok []

/-- document_generator.py `create_presentation` (lines 34-103), reduced
to its observable output trace. -/
def create_presentation (content : Doc) : Except String (List RItem) :=
  match renderSections (pptxSectionItems content) SECTION_ORDER with
  | .error e => .error e
  | .ok items => .ok (.title :: items)

/-- One section of `_create_rtf` (lines 285-346): the matching key is the
first content key equal to the section name after colon-stripping and
lowercasing; skipped when no key matches or the matched value is falsy;
the Parameters section subscripts the table dictionary (raising on any
other value) and fills rows docx-style; other sections emit one
paragraph per formatted line. -/
def rtfSectionItems (content : Doc) (sect : String) : Except String (List RItem) :=
  match content.find? (fun kv => _process_section_name kv.1 = _process_section_name sect) with
  | none => .ok []
  | some kv =>
    if truthy kv.2 then
      if _process_section_name sect = "parameters" then
        match kv.2 with
        | .vtable h r =>
          match fillRows h.length r with
          | .error e => .error e
          | .ok rows => .ok [.heading sect, .tableItem (h :: rows)]
        | _ => .error "table_headers"
      else .ok ([.heading sect] ++ rtfParas kv.2)
    else .ok []

/-- document_generator.py `_create_rtf` (lines 256-360), reduced to its
observable output trace. -/
def _create_rtf (content : Doc) : Except String (List RItem) :=
  match renderSections (rtfSectionItems content) SECTION_ORDER with
  | .error e => .error e
  | .ok items => .ok (.title :: items)

/-- Fetch a key for the HTML template, raising its name on absence
(Python `KeyError` inside the f-string). -/
def getKey (content : Doc) (k : String) : Except String SVal :=
  match pyLookup content k with
  | some v => .ok v
  | none => .error k

/-- document_generator.py `_create_html` (lines 444-582): a fixed
template that subscripts every section key unconditionally — no
emptiness checks and no Version History heading.  The keys are evaluated
in template order; the first missing key or shape mismatch raises.
Usage Examples iterates its value: a list yields its elements, a string
yields its characters. -/
def _create_html (content : Doc) : Except String (List RItem) := do
  let ov ← getKey content "Overview"
  let syn ← getKey content "Syntax"
  let params ← getKey content "Parameters"
  let tbl ←
    match params with
    | .vtable h r => Except.ok (SVal.vtable h r)
    | _ => Except.error "table_headers"
  let kf ← getKey content "Key Features and Functionalities"
  let kfPair ←
    match kf with
    | .vfeat m subs => Except.ok (m, subs)
    | _ => Except.error "main_section"
  let ux ← getKey content "Usage Examples"
  let examples ←
    match ux with
    | .vlist xs => Except.ok xs
    | .vstr s => Except.ok (s.data.map fun c => String.mk [c])
    | _ => Except.error "Usage Examples iteration"
  let rv ← getKey content "Return Values"
  let eh ← getKey content "Error Handling"
  let sm ← getKey content "Summary"
  match tbl with
  | .vtable h r =>
    pure ([.title,
      .heading "Overview", .para ⟨pyStrSVal ov⟩,
      .heading "Syntax", .para ⟨pyStrSVal syn⟩,
      .heading "Parameters", .tableItem (h :: r),
      .heading "Key Features and Functionalities", .para kfPair.1]
      ++ (kfPair.2.map fun ts => RItem.para (ts.1 ++ ": " ++ ts.2))
      ++ [.heading "Usage Examples"] ++ (examples.map RItem.para)
      ++ [.heading "Return Values", .para ⟨pyStrSVal rv⟩,
          .heading "Error Handling", .para ⟨pyStrSVal eh⟩,
          .heading "Summary", .para ⟨pyStrSVal sm⟩])
  | _ => Except.error "table_headers"

/-- Python dictionary assignment `d[k] = v`: overwrite in place when the
key exists, append otherwise. -/
def dictSet (d : Doc) (k : String) (v : SVal) : Doc :=
  if memKey d k then
    d.map fun kv => if kv.1 = k then (k, v) else kv
  else d ++ [(k, v)]

/-- The section value stored for the optional macro name. -/
def mnVal : Option String → SVal
  | some n => .vstr n
  | none => .vnone

/-- document_generator.py `create_manual` (lines 105-134): writes the
macro name into the caller-supplied content mapping, then dispatches on
the output format, any unrecognized format falling back to the RTF
renderer.  The returned pair makes the in-place dictionary mutation
explicit: the first component is the mapping as the caller observes it
after the call, and it is also what the selected renderer receives. -/
def create_manual (content : Doc) (output_format : String)
    (macro_name : Option String) : Doc × Except String (List RItem) :=
  let content' := dictSet content "macro_name" (mnVal macro_name)
  (content',
    if output_format = "pdf" then _create_pdf content'
    else if output_format = "pptx" then create_presentation content'
    else if output_format = "html" then _create_html content'
    else _create_rtf content')

/-- Heading extraction from a render trace. -/
def headingOf : RItem → Option String
  | .heading s => some s
  | _ => none

/-- The section headings a renderer emitted; none when it raised. -/
def headingsOf : Except String (List RItem) → List String
  | .ok items => items.filterMap headingOf
  | .error _ => []

/-- Shape of the text following a percent sign in a macro-opening
declaration: an identifier (one-or-more word characters), one-or-more
whitespace characters, then the declared name's first word character.
The call regex of `find_macro_calls` requires the parenthesis to follow
the identifier with only whitespace between, so this shape can never
complete a call match. -/
def declShape (cs : List Char) : Bool :=
  let w := spanWhile isWordChar cs
  !w.1.isEmpty &&
    match spanWhile pyIsSpace w.2 with
    | (ws, c :: _) => !ws.isEmpty && isWordChar c
    | (_, []) => false

/-- Every percent sign in the text opens a declaration-shaped construct
(see `declShape`). -/
def declOnly : List Char → Bool
  | [] => true
  | c :: cs => (if c = '%' then declShape cs else true) && declOnly cs

/-! ## General lemmas about the string primitives -/

theorem dropWhile_head_not (p : Char → Bool) (l : List Char) (c : Char) (t : List Char)
    (h : l.dropWhile p = c :: t) : p c = false := by
  induction l with
  | nil => simp [List.dropWhile] at h
  | cons a l ih =>
    by_cases hp : p a
    · simp [List.dropWhile, hp] at h
      exact ih h
    · simp [List.dropWhile, hp] at h
      rcases h with ⟨rfl, rfl⟩
      simpa using hp

theorem stripTrail_head (l : List Char) (c : Char) (t : List Char)
    (h : stripTrail l = c :: t) : ∃ t0, l = c :: t0 := by
  cases l with
  | nil => simp [stripTrail] at h
  | cons a l =>
    simp only [stripTrail] at h
    split at h
    · simp at h
    · exact ⟨_, by injection h with h1 _; rw [h1]⟩

/-- The stripped line of the classifier never starts with a space, so the
code-block test of `format_content` can never succeed. -/
theorem strip_no_indent (l : List Char) :
    leadsWith (pyStrip l) [' ', ' ', ' ', ' '] = false := by
  rcases hs : pyStrip l with _ | ⟨c, t⟩
  · rfl
  · unfold pyStrip at hs
    obtain ⟨t0, h0⟩ := stripTrail_head _ _ _ hs
    have hc : pyIsSpace c = false := dropWhile_head_not _ _ _ _ h0
    have : c ≠ ' ' := by
      intro he
      rw [he] at hc
      simp [pyIsSpace] at hc
    simp [leadsWith, this]

/-! ## C1: the four-space code-line rule of format_content -/

/-- C1: the claim states that an input line with 4 or more leading spaces
is re-emitted with exactly 4 leading spaces and that code-block mode
spans consecutive indented lines.  In the code the test
`stripped_line.startswith('    ')` is applied to the already-stripped
line, which never starts with a space (`strip_no_indent`), so the branch
is unreachable: indented lines are trimmed like ordinary lines.  This
theorem evaluates `format_content` at the failing input: two 4-space
indented code lines come back with their indentation removed. -/
theorem c1_code_lines_trimmed_not_reprefixed :
    format_content (.vstr "    a = 1;\n    b = 2;\nrun;") = "a = 1;\nb = 2;\nrun;" := by
  decide

/-! ## C6: the Example:/Usage: mode of format_content -/

/-- C6 counterexample: the claim says subsequent lines pass through
verbatim until a blank line or new section ends the mode.  At this input
the indented line `    indented` is emitted stripped (not verbatim), and
after the blank line the mode has not ended: the later `Usage:` marker
line is silently dropped instead of being treated as outside the mode. -/
theorem c6_counterexample :
    format_content (.vstr "Example:\n    indented\n\nUsage:\nb")
      = "\nExample:\nindented\n\nb" := by
  decide

/-- C6 amended: a line containing an `Example:` or `Usage:` marker opens
an example mode that never ends for the remainder of the call; while the
mode is open, further marker lines are dropped and every other line is
appended with surrounding whitespace stripped (not verbatim). -/
theorem c6_example_mode_persists (st : FCState) (line : List Char)
    (hex : st.in_example = true) (hne : st.formatted ≠ []) :
    (fcStep st line).in_example = true ∧
    (fcStep st line).formatted = st.formatted ++
      (if containsSub (pyStrip line) "Example:".data
            || containsSub (pyStrip line) "Usage:".data
       then [] else [pyStrip line]) := by
  unfold fcStep
  have h1 : ¬ (pyStrip line = [] ∧ st.formatted = []) := fun h => hne h.2
  rw [if_neg h1]
  cases hm : (containsSub (pyStrip line) "Example:".data
      || containsSub (pyStrip line) "Usage:".data) with
  | true => simp [hex]
  | false =>
    cases hb : leadsWith (pyStrip line) "- ".data with
    | true => simp [hex, strip_no_indent]
    | false =>
      cases hn : numberedStart (pyStrip line) with
      | true => simp [hex, strip_no_indent]
      | false => simp [hex, strip_no_indent]

/-- C6 witness: the amended theorem applied at a concrete open-mode state
and a concrete marker line, which is dropped. -/
theorem c6_witness :
    ((⟨[['x']], true, false, false⟩ : FCState).formatted ≠ [] ∧
      (fcStep ⟨[['x']], true, false, false⟩ "  Usage: go  ".data).in_example = true ∧
      (fcStep ⟨[['x']], true, false, false⟩ "  Usage: go  ".data).formatted =
        (⟨[['x']], true, false, false⟩ : FCState).formatted ++
          (if containsSub (pyStrip "  Usage: go  ".data) "Example:".data
                || containsSub (pyStrip "  Usage: go  ".data) "Usage:".data
           then [] else [pyStrip "  Usage: go  ".data])) :=
  ⟨by decide, c6_example_mode_persists _ _ rfl (by decide)⟩

/-! ## C4: parameter extraction and the equals-sign split -/

theorem splitAux_all_clean (sep : Char) (xs : List Char) :
    ∀ acc, (∀ c ∈ xs, ¬ c = sep) → splitAllOnAux sep xs acc = [acc.reverse ++ xs] := by
  induction xs with
  | nil => intro acc _; simp [splitAllOnAux]
  | cons c cs ih =>
    intro acc h
    have hc : ¬ c = sep := h c (by simp)
    simp only [splitAllOnAux, if_neg hc]
    rw [ih _ (fun d hd => h d (by simp [hd]))]
    simp

theorem splitAux_through_sep (sep : Char) (xs ys : List Char) :
    ∀ acc, (∀ c ∈ xs, ¬ c = sep) →
      splitAllOnAux sep (xs ++ sep :: ys) acc = (acc.reverse ++ xs) :: splitAllOnAux sep ys [] := by
  induction xs with
  | nil => intro acc _; simp [splitAllOnAux]
  | cons c cs ih =>
    intro acc h
    have hc : ¬ c = sep := h c (by simp)
    have step : splitAllOnAux sep ((c :: cs) ++ sep :: ys) acc
        = splitAllOnAux sep (cs ++ sep :: ys) (c :: acc) := by
      simp [splitAllOnAux, hc]
    rw [step, ih _ (fun d hd => h d (by simp [hd]))]
    simp

theorem splitAllOn_two_seps (sep : Char) (n d1 d2 : List Char)
    (hn : ∀ c ∈ n, ¬ c = sep) (h1 : ∀ c ∈ d1, ¬ c = sep) (h2 : ∀ c ∈ d2, ¬ c = sep) :
    splitAllOn sep (n ++ sep :: (d1 ++ sep :: d2)) = [n, d1, d2] := by
  unfold splitAllOn
  rw [splitAux_through_sep _ _ _ _ hn, splitAux_through_sep _ _ _ _ h1,
    splitAux_all_clean _ _ _ h2]
  simp

/-- C4 counterexample: the claim says the default of an entry is the
entire text after the first equals sign.  For the entry `p1=a=b` the
code's `split` on every equals sign yields pieces `p1`, `a`, `b` and
stores only the middle piece: the extracted default is `a`, not `a=b`. -/
theorem c4_counterexample :
    extract_macro_parameters (fun _ _ => none) "%macro m(p1=a=b);".data
        = [("p1", "a", "Parameter p1 for the macro")] ∧
      (extract_macro_parameters (fun _ _ => none) "%macro m(p1=a=b);".data).map
          (fun t => t.2.1) ≠ ["a=b"] := by
  decide

/-- C4 amended: for the declaration list `p1=a, p2, p3=c` extraction
returns exactly 3 descriptors in order with defaults a, None, c; in
general each comma-separated entry is split on every equals sign, the
name is the text before the first equals sign, and the default is the
text between the first and the second equals sign (the whole remaining
text only when the entry holds at most one equals sign), with the None
sentinel for an absent or empty default. -/
theorem c4_parameter_split :
    (∀ oracle : String → List Char → Option String,
        (extract_macro_parameters oracle "%macro test(p1=a, p2, p3=c);".data).map
          (fun t => (t.1, t.2.1)) = [("p1", "a"), ("p2", "None"), ("p3", "c")]) ∧
    (∀ n d1 d2 : List Char,
        (∀ c ∈ n, ¬ c = '=') → (∀ c ∈ d1, ¬ c = '=') → (∀ c ∈ d2, ¬ c = '=') →
        parseEntry (n ++ '=' :: (d1 ++ '=' :: d2)) =
          (⟨pyStrip n⟩, if pyStrip d1 = [] then "None" else ⟨pyStrip d1⟩)) := by
  constructor
  · intro oracle
    have hp : parsedParams "%macro test(p1=a, p2, p3=c);".data
        = ["p1=a".data, "p2".data, "p3=c".data] := by decide
    unfold extract_macro_parameters
    rw [hp]
    simp only [List.map_cons, List.map_nil]
    decide
  · intro n d1 d2 hn h1 h2
    unfold parseEntry
    rw [splitAllOn_two_seps _ _ _ _ hn h1 h2]
    rfl

/-- C4 witness: the amended theorem applied at the canonical declaration
list and at the concrete two-equals entry `p1=a=b`. -/
theorem c4_witness :
    ((extract_macro_parameters (fun _ _ => none) "%macro test(p1=a, p2, p3=c);".data).map
        (fun t => (t.1, t.2.1)) = [("p1", "a"), ("p2", "None"), ("p3", "c")]) ∧
      parseEntry ("p1".data ++ '=' :: ("a".data ++ '=' :: "b".data)) =
        (⟨pyStrip "p1".data⟩, if pyStrip "a".data = [] then "None" else ⟨pyStrip "a".data⟩) :=
  ⟨c4_parameter_split.1 (fun _ _ => none),
   c4_parameter_split.2 _ _ _ (by decide) (by decide) (by decide)⟩

/-! ## C5: extract_macros on nested and unterminated macros -/

theorem joinNl_nil : joinNl [] = [] := rfl

theorem joinNl_cons (x : List Char) (xs : List (List Char)) :
    joinNl (x :: xs) = x ++ '\n' :: joinNl xs := rfl

theorem joinNl_append (xs ys : List (List Char)) :
    joinNl (xs ++ ys) = joinNl xs ++ joinNl ys := by
  induction xs with
  | nil => rfl
  | cons x xs ih => simp [joinNl_cons, ih]

theorem em_plain_not_in (ls : List (List Char)) :
    ∀ st : EMState, (∀ l ∈ ls, hasMacTok l = false ∧ hasMendTok l = false) →
      st.inMac = false → ls.foldl emStep st = st := by
  induction ls with
  | nil => intro st _ _; rfl
  | cons l ls ih =>
    intro st h hm
    have hl := h l (by simp)
    have hstep : emStep st l = st := by
      simp [emStep, hl.1, hl.2, hm]
    rw [List.foldl_cons, hstep]
    exact ih st (fun d hd => h d (by simp [hd])) hm

theorem em_plain_in_mac (ls : List (List Char)) :
    ∀ st : EMState, (∀ l ∈ ls, hasMacTok l = false ∧ hasMendTok l = false) →
      st.inMac = true →
      ls.foldl emStep st = { st with current := st.current ++ joinNl ls } := by
  induction ls with
  | nil => intro st _ _; simp [joinNl]
  | cons l ls ih =>
    intro st h hm
    have hl := h l (by simp)
    have hstep : emStep st l = { st with current := st.current ++ l ++ ['\n'] } := by
      simp [emStep, hl.1, hl.2, hm]
    rw [List.foldl_cons, hstep]
    rw [ih _ (fun d hd => h d (by simp [hd])) (by simp [hm])]
    simp [joinNl_cons]

/-- C5: a source whose lines are junk, then an outer macro-opening line,
then a nested opening/closing pair, then the outer closing line, then
junk, yields exactly one captured element spanning the outer opening
line through the outer closing line with the inner pair embedded; and a
source that ends while a capture is still open (unterminated macro)
still returns the partial capture as the final element. -/
theorem c5_nested_and_unterminated :
    (∀ (s : List Char) (pre a b c post : List (List Char)) (o i j m : List Char),
      splitLinesL s = pre ++ o :: (a ++ i :: (b ++ j :: (c ++ m :: post))) →
      (∀ l ∈ pre, hasMacTok l = false ∧ hasMendTok l = false) →
      (∀ l ∈ a, hasMacTok l = false ∧ hasMendTok l = false) →
      (∀ l ∈ b, hasMacTok l = false ∧ hasMendTok l = false) →
      (∀ l ∈ c, hasMacTok l = false ∧ hasMendTok l = false) →
      (∀ l ∈ post, hasMacTok l = false ∧ hasMendTok l = false) →
      hasMacTok o = true → hasMendTok o = false →
      hasMacTok i = true → hasMendTok i = false →
      hasMacTok j = false → hasMendTok j = true →
      hasMacTok m = false → hasMendTok m = true →
      extract_macros s = [pyStrip (joinNl (o :: (a ++ i :: (b ++ j :: (c ++ [m])))))]) ∧
    (∀ (s : List Char) (a : List (List Char)) (o : List Char),
      splitLinesL s = o :: a →
      (∀ l ∈ a, hasMacTok l = false ∧ hasMendTok l = false) →
      hasMacTok o = true → hasMendTok o = false →
      extract_macros s = [pyStrip (joinNl (o :: a))]) := by
  constructor
  · intro s pre a b c post o i j m hsplit hpre ha hb hc2 hpost ho1 ho2 hi1 hi2 hj1 hj2 hm1 hm2
    unfold extract_macros extract_macros_lines
    rw [hsplit]
    have e1 : pre ++ o :: (a ++ i :: (b ++ j :: (c ++ m :: post)))
        = pre ++ ([o] ++ (a ++ ([i] ++ (b ++ ([j] ++ (c ++ ([m] ++ post))))))) := by simp
    rw [e1]
    simp only [List.foldl_append, List.foldl_cons, List.foldl_nil]
    rw [em_plain_not_in pre _ hpre rfl]
    have hoE : emStep ⟨[], false, 0, []⟩ o = ⟨o ++ ['\n'], true, 1, []⟩ := by
      simp [emStep, ho1, ho2]
    rw [hoE]
    rw [em_plain_in_mac a _ ha rfl]
    have hiE : emStep ⟨(o ++ ['\n']) ++ joinNl a, true, 1, []⟩ i
        = ⟨((o ++ ['\n']) ++ joinNl a) ++ i ++ ['\n'], true, 2, []⟩ := by
      simp [emStep, hi1, hi2]
    rw [hiE]
    rw [em_plain_in_mac b _ hb rfl]
    have hjE : emStep ⟨(((o ++ ['\n']) ++ joinNl a) ++ i ++ ['\n']) ++ joinNl b, true, 2, []⟩ j
        = ⟨((((o ++ ['\n']) ++ joinNl a) ++ i ++ ['\n']) ++ joinNl b) ++ j ++ ['\n'],
            true, 1, []⟩ := by
      simp [emStep, hj1, hj2]
    rw [hjE]
    rw [em_plain_in_mac c _ hc2 rfl]
    have hmE : emStep
        ⟨(((((o ++ ['\n']) ++ joinNl a) ++ i ++ ['\n']) ++ joinNl b) ++ j ++ ['\n']) ++ joinNl c,
          true, 1, []⟩ m
        = ⟨[], false, 0,
            [pyStrip ((((((o ++ ['\n']) ++ joinNl a) ++ i ++ ['\n']) ++ joinNl b) ++ j ++ ['\n'])
              ++ joinNl c ++ m ++ ['\n'])]⟩ := by
      simp [emStep, hm1, hm2]
    rw [hmE]
    rw [em_plain_not_in post _ hpost rfl]
    simp [joinNl_cons, joinNl_append, joinNl_nil]
  · intro s a o hsplit ha ho1 ho2
    unfold extract_macros extract_macros_lines
    rw [hsplit]
    simp only [List.foldl_cons]
    have hoE : emStep ⟨[], false, 0, []⟩ o = ⟨o ++ ['\n'], true, 1, []⟩ := by
      simp [emStep, ho1, ho2]
    rw [hoE]
    rw [em_plain_in_mac a _ ha rfl]
    have hne : (o ++ ['\n']) ++ joinNl a ≠ [] := by
      simp [List.append_eq_nil]
    simp [hne, joinNl_cons]

/-- C5 witness: the theorem applied at concrete sources, one with a
nested pair and junk around it, one unterminated. -/
theorem c5_witness :
    (extract_macros
        "junk\n%macro outer(x);\nbody1\n%macro inner;\nbody2\n%mend inner;\nbody3\n%mend outer;\nafter".data
      = [pyStrip (joinNl ("%macro outer(x);".data ::
          ("body1".data :: [] ++ "%macro inner;".data ::
            ("body2".data :: [] ++ "%mend inner;".data ::
              ("body3".data :: [] ++ ["%mend outer;".data])))))]) ∧
    (extract_macros "%macro broken(a);\nline1\nline2".data
      = [pyStrip (joinNl ("%macro broken(a);".data :: ["line1".data, "line2".data]))]) :=
  ⟨c5_nested_and_unterminated.1 _ ["junk".data] ["body1".data] ["body2".data] ["body3".data]
      ["after".data] _ _ _ _ (by decide) (by decide) (by decide) (by decide) (by decide)
      (by decide) (by decide) (by decide) (by decide) (by decide) (by decide) (by decide)
      (by decide) (by decide),
   c5_nested_and_unterminated.2 _ ["line1".data, "line2".data] _ (by decide) (by decide)
      (by decide) (by decide)⟩

/-! ## C8: per-parameter description failure tolerance -/

theorem fallback_ne_empty (n : String) : ("Parameter " ++ n ++ " for the macro") ≠ "" := by
  intro h
  have h2 := congrArg String.data h
  rw [String.data_append, String.data_append] at h2
  simp at h2

/-- C8: for any enrichment oracle and any source, the names and defaults
of the extracted descriptors are those the always-failing oracle also
produces, the descriptor count equals the declared-parameter count, and
a parameter whose description call fails receives exactly the non-empty
generic templated description — failures never abort extraction or
change the result shape. -/
theorem c8_description_failure_tolerated (oracle : String → List Char → Option String)
    (code : List Char) :
    ((extract_macro_parameters oracle code).map (fun t => (t.1, t.2.1))
        = (extract_macro_parameters (fun _ _ => none) code).map (fun t => (t.1, t.2.1))) ∧
    (extract_macro_parameters oracle code).length = (parsedParams code).length ∧
    (∀ t ∈ extract_macro_parameters oracle code,
      oracle t.1 code = none →
        t.2.2 = "Parameter " ++ t.1 ++ " for the macro" ∧ t.2.2 ≠ "") := by
  refine ⟨?_, ?_, ?_⟩
  · unfold extract_macro_parameters
    rw [List.map_map, List.map_map]
    rfl
  · unfold extract_macro_parameters
    rw [List.length_map]
  · intro t ht hn
    unfold extract_macro_parameters at ht
    rw [List.mem_map] at ht
    obtain ⟨param, _, rfl⟩ := ht
    refine ⟨?_, ?_⟩
    · simp [generate_parameter_description, hn]
    · simp only [generate_parameter_description, hn]
      exact fallback_ne_empty _

/-- C8 witness: the theorem applied at a concrete failing oracle, source,
and descriptor. -/
theorem c8_witness :
    (("x", "None", "Parameter x for the macro") : String × String × String).2.2
        = "Parameter " ++ "x" ++ " for the macro" ∧
      (("x", "None", "Parameter x for the macro") : String × String × String).2.2 ≠ "" :=
  (c8_description_failure_tolerated (fun _ _ => none) "%macro m(x);".data).2.2
    ("x", "None", "Parameter x for the macro") (by decide) rfl

/-! ## C9: create_manual mutates the caller-supplied mapping -/

theorem pyLookup_append_single_other (d : Doc) (k k' : String) (v : SVal) (hne : k' ≠ k) :
    pyLookup (d ++ [(k, v)]) k' = pyLookup d k' := by
  induction d with
  | nil => simp [pyLookup, Ne.symm hne]
  | cons kv d ih =>
    by_cases hk : kv.1 = k'
    · simp [pyLookup, hk]
    · simp [pyLookup, hk, ih]

theorem pyLookup_overwrite_other (d : Doc) (k k' : String) (v : SVal) (hne : k' ≠ k) :
    pyLookup (d.map fun kv => if kv.1 = k then (k, v) else kv) k' = pyLookup d k' := by
  induction d with
  | nil => simp [pyLookup]
  | cons kv d ih =>
    by_cases hk : kv.1 = k
    · have : kv.1 ≠ k' := by rw [hk]; exact Ne.symm hne
      simp [pyLookup, hk, Ne.symm hne, this, ih]
    · simp only [List.map_cons, if_neg hk]
      by_cases hk' : kv.1 = k'
      · simp [pyLookup, hk']
      · simp [pyLookup, hk', ih]

theorem pyLookup_dictSet_self (d : Doc) (k : String) (v : SVal) :
    pyLookup (dictSet d k v) k = some v := by
  induction d with
  | nil => simp [dictSet, memKey, pyLookup]
  | cons kv d ih =>
    by_cases hk : kv.1 = k
    · have hmem : memKey (kv :: d) k = true := by simp [memKey, hk]
      simp only [dictSet, hmem, if_true, List.map_cons, if_pos hk]
      simp [pyLookup]
    · by_cases hm : memKey d k = true
      · have hmem : memKey (kv :: d) k = true := by simp [memKey, hm]
        have hds : dictSet d k v = d.map (fun kv => if kv.1 = k then (k, v) else kv) := by
          simp [dictSet, hm]
        simp only [dictSet, hmem, if_true, List.map_cons, if_neg hk]
        rw [pyLookup, if_neg hk, ← hds]
        exact ih
      · have hmem : memKey (kv :: d) k = false := by simp [memKey, hk, hm]
        have hds : dictSet d k v = d ++ [(k, v)] := by simp [dictSet, hm]
        simp only [dictSet, hmem, Bool.false_eq_true, if_false, List.cons_append]
        rw [pyLookup, if_neg hk, ← hds]
        exact ih

theorem pyLookup_dictSet_other (d : Doc) (k k' : String) (v : SVal) (hne : k' ≠ k) :
    pyLookup (dictSet d k v) k' = pyLookup d k' := by
  unfold dictSet
  by_cases hm : memKey d k = true
  · simp only [hm, if_true]
    exact pyLookup_overwrite_other d k k' v hne
  · simp only [hm, Bool.false_eq_true, if_false]
    exact pyLookup_append_single_other d k k' v hne

/-- C9: `create_manual` writes the `macro_name` key into the
caller-supplied content mapping (adding it or overwriting it) before
dispatching, leaves every other entry unchanged, and hands that mutated
mapping to whichever renderer the format selects. -/
theorem c9_create_manual_mutates_content (content : Doc) (fmt : String) (mn : Option String) :
    pyLookup (create_manual content fmt mn).1 "macro_name" = some (mnVal mn) ∧
    (∀ k, k ≠ "macro_name" → pyLookup (create_manual content fmt mn).1 k = pyLookup content k) ∧
    (create_manual content fmt mn).2 =
      (if fmt = "pdf" then _create_pdf (create_manual content fmt mn).1
       else if fmt = "pptx" then create_presentation (create_manual content fmt mn).1
       else if fmt = "html" then _create_html (create_manual content fmt mn).1
       else _create_rtf (create_manual content fmt mn).1) :=
  ⟨pyLookup_dictSet_self content "macro_name" (mnVal mn),
   fun k hk => pyLookup_dictSet_other content "macro_name" k (mnVal mn) hk,
   rfl⟩

/-- C9 witness: the theorem applied at a concrete mapping, format, and
macro name; the Overview entry is untouched while macro_name appears. -/
theorem c9_witness :
    pyLookup (create_manual [("Overview", SVal.vstr "o")] "pdf" (some "m")).1 "macro_name"
        = some (mnVal (some "m")) ∧
      ("Overview" : String) ≠ "macro_name" ∧
      pyLookup (create_manual [("Overview", SVal.vstr "o")] "pdf" (some "m")).1 "Overview"
        = pyLookup [("Overview", SVal.vstr "o")] "Overview" :=
  ⟨(c9_create_manual_mutates_content [("Overview", SVal.vstr "o")] "pdf" (some "m")).1,
   by decide,
   (c9_create_manual_mutates_content [("Overview", SVal.vstr "o")] "pdf" (some "m")).2.1
     "Overview" (by decide)⟩

/-! ## C10: declarations are never reported as macro calls -/

theorem matchCallAt_none_not_percent (c : Char) (cs : List Char) (h : ¬ c = '%') :
    matchCallAt (c :: cs) = none := by
  simp [matchCallAt, h]

theorem matchCallAt_none_decl (cs : List Char) (h : declShape cs = true) :
    matchCallAt ('%' :: cs) = none := by
  simp only [declShape] at h
  rcases hsp : spanWhile pyIsSpace (spanWhile isWordChar cs).2 with ⟨ws, rest⟩
  rw [hsp] at h
  cases rest with
  | nil => simp at h
  | cons c2 r =>
    rw [Bool.and_eq_true] at h
    obtain ⟨h1, h2⟩ := h
    rw [Bool.and_eq_true] at h2
    have hwc : isWordChar c2 = true := h2.2
    have hno : ¬ (spanWhile isWordChar cs).1 = [] := by
      intro he
      rw [he] at h1
      simp at h1
    have hpar : c2 ≠ '(' := by
      intro he
      rw [he] at hwc
      exact absurd hwc (by decide)
    simp [matchCallAt, hsp, hno, hpar]

theorem findall_decl_nil (fuel : Nat) :
    ∀ l, declOnly l = true → findallCallsAux fuel l = [] := by
  induction fuel with
  | zero => intro l _; rfl
  | succ fuel ih =>
    intro l h
    cases l with
    | nil => rfl
    | cons c cs =>
      simp only [declOnly, Bool.and_eq_true] at h
      obtain ⟨h1, h2⟩ := h
      by_cases hc : c = '%'
      · subst hc
        rw [if_pos rfl] at h1
        simp only [findallCallsAux, matchCallAt_none_decl cs h1]
        exact ih cs h2
      · simp only [findallCallsAux, matchCallAt_none_not_percent c cs hc]
        exact ih cs h2

/-- C10: the call regex requires the parenthesis to follow the
percent-prefixed identifier with only whitespace between; a
declaration-shaped occurrence (identifier, mandatory whitespace, then
the declared name) can never complete a match, so whenever every percent
sign in the source opens such a declaration, `find_macro_calls` returns
the empty result. -/
theorem c10_declarations_invisible (s : List Char) (h : declOnly s = true) :
    find_macro_calls s = "" := by
  unfold find_macro_calls
  rw [findall_decl_nil s.length s h]
  rfl

/-- C10 witness: the theorem applied at a concrete source whose only
percent construct is a whitespace-separated macro declaration. -/
theorem c10_witness :
    declOnly "%macro mymacro (a=1, b);\ndata x; run;".data = true ∧
      find_macro_calls "%macro mymacro (a=1, b);\ndata x; run;".data = "" :=
  ⟨by decide, c10_declarations_invisible _ (by decide)⟩

/-! ## Renderer infrastructure lemmas -/

theorem pyLookup_mem (d : Doc) (k : String) (v : SVal) (h : pyLookup d k = some v) :
    (k, v) ∈ d := by
  induction d with
  | nil => simp [pyLookup] at h
  | cons kv d ih =>
    by_cases hk : kv.1 = k
    · rw [pyLookup, if_pos hk] at h
      injection h with h1
      have : (k, v) = kv := by rw [← hk, ← h1]
      rw [this]
      exact List.mem_cons_self kv d
    · rw [pyLookup, if_neg hk] at h
      exact List.mem_cons.mpr (Or.inr (ih h))

theorem renderSections_cons_skip (f : String → Except String (List RItem)) (s : String)
    (rest : List String) (h : f s = .ok []) :
    renderSections f (s :: rest) = renderSections f rest := by
  simp only [renderSections, h]
  cases renderSections f rest with
  | error e => rfl
  | ok more => simp

theorem renderSections_cons_emit (f : String → Except String (List RItem)) (s : String)
    (rest : List String) (items more : List RItem)
    (h : f s = .ok items) (hr : renderSections f rest = .ok more) :
    renderSections f (s :: rest) = .ok (items ++ more) := by
  simp only [renderSections, h, hr]

theorem renderSections_cons_error (f : String → Except String (List RItem)) (s : String)
    (rest : List String) (e : String) (h : f s = .error e) :
    renderSections f (s :: rest) = .error e := by
  simp only [renderSections, h]

theorem renderSections_all_skip (f : String → Except String (List RItem)) (sects : List String)
    (h : ∀ s ∈ sects, f s = .ok []) :
    renderSections f sects = .ok [] := by
  induction sects with
  | nil => rfl
  | cons s rest ih =>
    rw [renderSections_cons_skip _ _ _ (h s (by simp))]
    exact ih fun x hx => h x (by simp [hx])

/-- Emission over the fixed section order when exactly Overview and
Summary produce output. -/
theorem renderSections_two (f : String → Except String (List RItem))
    (oItems sItems : List RItem)
    (hOv : f "Overview" = .ok oItems)
    (hSm : f "Summary" = .ok sItems)
    (hskip : ∀ s ∈ SECTION_ORDER, s ≠ "Overview" → s ≠ "Summary" → f s = .ok []) :
    renderSections f SECTION_ORDER = .ok (oItems ++ (sItems ++ [])) := by
  have r8 : renderSections f ["Summary"] = .ok (sItems ++ []) :=
    renderSections_cons_emit _ _ _ _ _ hSm rfl
  have r7 := (renderSections_cons_skip f "Version History" ["Summary"]
      (hskip "Version History" (by decide) (by decide) (by decide))).trans r8
  have r6 := (renderSections_cons_skip f "Error Handling" _
      (hskip "Error Handling" (by decide) (by decide) (by decide))).trans r7
  have r5 := (renderSections_cons_skip f "Return Values" _
      (hskip "Return Values" (by decide) (by decide) (by decide))).trans r6
  have r4 := (renderSections_cons_skip f "Usage Examples" _
      (hskip "Usage Examples" (by decide) (by decide) (by decide))).trans r5
  have r3 := (renderSections_cons_skip f "Key Features and Functionalities" _
      (hskip "Key Features and Functionalities" (by decide) (by decide) (by decide))).trans r4
  have r2 := (renderSections_cons_skip f "Parameters" _
      (hskip "Parameters" (by decide) (by decide) (by decide))).trans r3
  have r1 := (renderSections_cons_skip f "Syntax" _
      (hskip "Syntax" (by decide) (by decide) (by decide))).trans r2
  exact renderSections_cons_emit _ _ _ _ _ hOv r1

theorem pdfSection_skip (content : Doc) (sect : String)
    (h : truthyKey content sect = false) :
    pdfSectionItems content sect = .ok [] := by
  unfold truthyKey at h
  unfold pdfSectionItems
  cases hl : pyLookup content sect with
  | none => rfl
  | some v =>
    rw [hl] at h
    simp only [] at h
    simp [h]

theorem pptxSection_skip (content : Doc) (sect : String)
    (h : truthyKey content sect = false) :
    pptxSectionItems content sect = .ok [] := by
  unfold truthyKey at h
  unfold pptxSectionItems
  cases hl : pyLookup content sect with
  | none => rfl
  | some v =>
    rw [hl] at h
    simp only [] at h
    simp [h]

theorem pdfSection_emit (content : Doc) (sect : String) (v : SVal)
    (hl : pyLookup content sect = some v) (hv : truthy v = true) (hs : sect ≠ "Parameters") :
    pdfSectionItems content sect = .ok ([.heading sect] ++ pdfBody v ++ [.spacer]) := by
  unfold pdfSectionItems
  rw [hl]
  simp [hv, hs]

theorem pptxSection_emit (content : Doc) (sect : String) (v : SVal)
    (hl : pyLookup content sect = some v) (hv : truthy v = true) (hs : sect ≠ "Parameters") :
    pptxSectionItems content sect = .ok [.heading sect, .slideText (format_content v)] := by
  unfold pptxSectionItems
  rw [hl]
  simp [hv, hs]

theorem findCongr {α : Type} (l : List α) (p q : α → Bool) (h : ∀ x ∈ l, p x = q x) :
    l.find? p = l.find? q := by
  induction l with
  | nil => rfl
  | cons a l ih =>
    have ha := h a (by simp)
    by_cases hq : q a = true
    · rw [List.find?_cons_of_pos _ (ha.trans hq), List.find?_cons_of_pos _ hq]
    · have hq' : ¬ q a = true := hq
      rw [List.find?_cons_of_neg _ (fun hp => hq' ((ha.symm.trans hp))),
        List.find?_cons_of_neg _ hq']
      exact ih fun x hx => h x (by simp [hx])

/-- Colon-stripping and lowercasing separates the nine canonical section
names. -/
theorem sect_norm_inj :
    ∀ x ∈ SECTION_ORDER, ∀ y ∈ SECTION_ORDER,
      _process_section_name x = _process_section_name y → x = y := by
  decide

theorem rtf_find_canonical (content : Doc) (sect : String)
    (hsect : sect ∈ SECTION_ORDER)
    (hcanon : ∀ kv ∈ content, kv.1 ∈ SECTION_ORDER) :
    content.find? (fun kv => _process_section_name kv.1 = _process_section_name sect)
      = content.find? (fun kv => kv.1 = sect) := by
  apply findCongr
  intro kv hkv
  by_cases he : kv.1 = sect
  · simp [he]
  · have hno : ¬ _process_section_name kv.1 = _process_section_name sect :=
      fun hn => he (sect_norm_inj kv.1 (hcanon kv hkv) sect hsect hn)
    simp [he, hno]

theorem find_key_pyLookup (content : Doc) (k : String) :
    (content.find? fun kv => kv.1 = k) = (pyLookup content k).map (fun v => (k, v)) := by
  induction content with
  | nil => rfl
  | cons kv d ih =>
    by_cases hk : kv.1 = k
    · rw [List.find?_cons_of_pos _ (by simp [hk]), pyLookup, if_pos hk]
      simp [← hk]
    · rw [List.find?_cons_of_neg _ (by simp [hk]), pyLookup, if_neg hk]
      exact ih

theorem rtfSection_skip (content : Doc) (sect : String)
    (hsect : sect ∈ SECTION_ORDER)
    (hcanon : ∀ kv ∈ content, kv.1 ∈ SECTION_ORDER)
    (h : truthyKey content sect = false) :
    rtfSectionItems content sect = .ok [] := by
  unfold truthyKey at h
  unfold rtfSectionItems
  rw [rtf_find_canonical content sect hsect hcanon, find_key_pyLookup]
  cases hl : pyLookup content sect with
  | none => rfl
  | some v =>
    rw [hl] at h
    simp only [] at h
    simp [h]

theorem rtfSection_emit (content : Doc) (sect : String) (v : SVal)
    (hsect : sect ∈ SECTION_ORDER)
    (hcanon : ∀ kv ∈ content, kv.1 ∈ SECTION_ORDER)
    (hl : pyLookup content sect = some v) (hv : truthy v = true)
    (hs : _process_section_name sect ≠ "parameters") :
    rtfSectionItems content sect = .ok ([.heading sect] ++ rtfParas v) := by
  unfold rtfSectionItems
  rw [rtf_find_canonical content sect hsect hcanon, find_key_pyLookup, hl]
  simp [hv, hs]

theorem pdfBody_no_heading (v : SVal) : (pdfBody v).filterMap headingOf = [] := by
  rw [List.filterMap_eq_nil_iff]
  intro i hi
  unfold pdfBody at hi
  rw [List.mem_filterMap] at hi
  obtain ⟨para, _, hpara⟩ := hi
  split at hpara
  · exact Option.noConfusion hpara
  · split at hpara <;> (injection hpara with h3; rw [← h3]; rfl)

theorem rtfParas_no_heading (v : SVal) : (rtfParas v).filterMap headingOf = [] := by
  rw [List.filterMap_eq_nil_iff]
  intro i hi
  unfold rtfParas at hi
  rw [List.mem_map] at hi
  obtain ⟨para, _, hpara⟩ := hi
  rw [← hpara]
  split <;> rfl

/-! ## C2: section ordering and empty-section omission -/

/-- C2 counterexample: the claim covers the HTML preview renderer, but
`_create_html` is a fixed template that subscripts every section key
unconditionally; on a canonical mapping populating exactly Overview and
Summary it raises a key error on Syntax instead of emitting the Overview
heading before the Summary heading, so the claim fails for the HTML
renderer. -/
theorem c2_counterexample :
    _create_html [("Overview", SVal.vstr "o"), ("Summary", SVal.vstr "s")]
      = Except.error "Syntax" := rfl

/-- C2 amended: for a canonical content mapping in which exactly
Overview and Summary are populated and every other section is absent or
empty, the editable-document, PDF, and slide-deck renderers emit the
Overview heading before the Summary heading and no other section
headings; the HTML preview renderer is excluded — it renders a fixed
template of all section headings and raises when a section key is
absent. -/
theorem c2_section_order (content : Doc)
    (h1 : truthyKey content "Overview" = true)
    (h2 : truthyKey content "Summary" = true)
    (hcanon : ∀ kv ∈ content, kv.1 ∈ SECTION_ORDER)
    (hothers : ∀ kv ∈ content, kv.1 ≠ "Overview" → kv.1 ≠ "Summary" → truthy kv.2 = false) :
    headingsOf (_create_pdf content) = ["Overview", "Summary"] ∧
    headingsOf (create_presentation content) = ["Overview", "Summary"] ∧
    headingsOf (_create_rtf content) = ["Overview", "Summary"] := by
  have hO : ∃ vO, pyLookup content "Overview" = some vO ∧ truthy vO = true := by
    unfold truthyKey at h1
    cases hl : pyLookup content "Overview" with
    | none => rw [hl] at h1; simp at h1
    | some v => rw [hl] at h1; exact ⟨v, rfl, h1⟩
  have hS : ∃ vS, pyLookup content "Summary" = some vS ∧ truthy vS = true := by
    unfold truthyKey at h2
    cases hl : pyLookup content "Summary" with
    | none => rw [hl] at h2; simp at h2
    | some v => rw [hl] at h2; exact ⟨v, rfl, h2⟩
  obtain ⟨vO, hlO, hvO⟩ := hO
  obtain ⟨vS, hlS, hvS⟩ := hS
  have hskipKey : ∀ s : String, s ≠ "Overview" → s ≠ "Summary" →
      truthyKey content s = false := by
    intro s hs1 hs2
    unfold truthyKey
    cases hl : pyLookup content s with
    | none => rfl
    | some v => exact hothers (s, v) (pyLookup_mem content s v hl) hs1 hs2
  refine ⟨?_, ?_, ?_⟩
  · have hr := renderSections_two (pdfSectionItems content)
      ([.heading "Overview"] ++ pdfBody vO ++ [.spacer])
      ([.heading "Summary"] ++ pdfBody vS ++ [.spacer])
      (pdfSection_emit content "Overview" vO hlO hvO (by decide))
      (pdfSection_emit content "Summary" vS hlS hvS (by decide))
      (fun s _ hs1 hs2 => pdfSection_skip content s (hskipKey s hs1 hs2))
    have hres : _create_pdf content
        = .ok (.title :: (([.heading "Overview"] ++ pdfBody vO ++ [.spacer])
            ++ (([.heading "Summary"] ++ pdfBody vS ++ [.spacer]) ++ []))) := by
      unfold _create_pdf
      rw [hr]
    rw [hres]
    unfold headingsOf
    simp [List.filterMap_append, pdfBody_no_heading, headingOf]
  · have hr := renderSections_two (pptxSectionItems content)
      [.heading "Overview", .slideText (format_content vO)]
      [.heading "Summary", .slideText (format_content vS)]
      (pptxSection_emit content "Overview" vO hlO hvO (by decide))
      (pptxSection_emit content "Summary" vS hlS hvS (by decide))
      (fun s _ hs1 hs2 => pptxSection_skip content s (hskipKey s hs1 hs2))
    have hres : create_presentation content
        = .ok (.title :: ([.heading "Overview", .slideText (format_content vO)]
            ++ ([.heading "Summary", .slideText (format_content vS)] ++ []))) := by
      unfold create_presentation
      rw [hr]
    rw [hres]
    unfold headingsOf
    simp [headingOf]
  · have hr := renderSections_two (rtfSectionItems content)
      ([.heading "Overview"] ++ rtfParas vO)
      ([.heading "Summary"] ++ rtfParas vS)
      (rtfSection_emit content "Overview" vO (by decide) hcanon hlO hvO (by decide))
      (rtfSection_emit content "Summary" vS (by decide) hcanon hlS hvS (by decide))
      (fun s hs hs1 hs2 => rtfSection_skip content s hs hcanon (hskipKey s hs1 hs2))
    have hres : _create_rtf content
        = .ok (.title :: (([.heading "Overview"] ++ rtfParas vO)
            ++ (([.heading "Summary"] ++ rtfParas vS) ++ []))) := by
      unfold _create_rtf
      rw [hr]
    rw [hres]
    unfold headingsOf
    simp [List.filterMap_append, rtfParas_no_heading, headingOf]

/-- C2 witness: the amended theorem applied at a concrete canonical
mapping with a populated Overview and Summary and an empty Syntax. -/
theorem c2_witness :
    truthyKey [("Overview", SVal.vstr "o"), ("Syntax", SVal.vstr ""), ("Summary", SVal.vstr "s")]
        "Overview" = true ∧
    (headingsOf (_create_pdf
        [("Overview", SVal.vstr "o"), ("Syntax", SVal.vstr ""), ("Summary", SVal.vstr "s")])
          = ["Overview", "Summary"] ∧
      headingsOf (create_presentation
        [("Overview", SVal.vstr "o"), ("Syntax", SVal.vstr ""), ("Summary", SVal.vstr "s")])
          = ["Overview", "Summary"] ∧
      headingsOf (_create_rtf
        [("Overview", SVal.vstr "o"), ("Syntax", SVal.vstr ""), ("Summary", SVal.vstr "s")])
          = ["Overview", "Summary"]) :=
  ⟨by decide,
   c2_section_order [("Overview", SVal.vstr "o"), ("Syntax", SVal.vstr ""),
      ("Summary", SVal.vstr "s")] (by decide) (by decide) (by decide) (by decide)⟩

/-! ## C3: case/colon tolerance of section matching -/

/-- C3 counterexample: the claim says every renderer recognizes the key
`syntax:` as the Syntax section.  The PDF renderer matches section names
exactly, so on a mapping keyed `syntax:` it emits no Syntax heading and
no body at all — only the title. -/
theorem c3_counterexample :
    _create_pdf [("syntax:", SVal.vstr "%m(1)")] = Except.ok [RItem.title] := rfl

/-- C3 amended: only the editable-document renderer matches section
names case-insensitively and colon-tolerantly — a single-entry mapping
under any key normalizing to `syntax` renders the Syntax heading and its
body there; the PDF and slide-deck renderers match keys exactly and emit
nothing but the title for such a mapping, and the HTML renderer raises
on the missing Overview key. -/
theorem c3_only_rtf_tolerant (k : String) (body : String)
    (hk : _process_section_name k = "syntax") (hks : k ≠ "Syntax") (hb : body ≠ "") :
    _create_rtf [(k, SVal.vstr body)]
        = .ok ([.title, .heading "Syntax"] ++ rtfParas (SVal.vstr body)) ∧
    _create_pdf [(k, SVal.vstr body)] = .ok [.title] ∧
    create_presentation [(k, SVal.vstr body)] = .ok [.title] ∧
    _create_html [(k, SVal.vstr body)] = Except.error "Overview" := by
  have hkne : ∀ sect : String, _process_section_name sect ≠ "syntax" → k ≠ sect := by
    intro sect hs he
    rw [he] at hk
    exact hs hk
  have hlook : ∀ sect : String, _process_section_name sect ≠ "syntax" →
      pyLookup [(k, SVal.vstr body)] sect = none := by
    intro sect hs
    simp [pyLookup, hkne sect hs]
  have hlookSyn : pyLookup [(k, SVal.vstr body)] "Syntax" = none := by
    simp [pyLookup, hks]
  have hkeyFalse : ∀ s ∈ SECTION_ORDER, truthyKey [(k, SVal.vstr body)] s = false := by
    intro s hsmem
    unfold truthyKey
    by_cases hsyn : s = "Syntax"
    · rw [hsyn, hlookSyn]
    · rw [hlook s ?_]
      intro hnorm
      have : _process_section_name s = _process_section_name "Syntax" := by
        rw [hnorm]; decide
      exact hsyn (sect_norm_inj s hsmem "Syntax" (by decide) this)
  have hrtfSkip : ∀ sect : String, _process_section_name sect ≠ "syntax" →
      rtfSectionItems [(k, SVal.vstr body)] sect = .ok [] := by
    intro sect hs
    have hfalse : ¬ (_process_section_name k = _process_section_name sect) :=
      fun h => hs (h.symm.trans hk)
    unfold rtfSectionItems
    rw [List.find?_cons_of_neg _ (by simpa using hfalse), List.find?_nil]
  have hrtfSyn : rtfSectionItems [(k, SVal.vstr body)] "Syntax"
      = .ok ([.heading "Syntax"] ++ rtfParas (SVal.vstr body)) := by
    have hpred : _process_section_name k = _process_section_name "Syntax" := by
      rw [hk]; decide
    unfold rtfSectionItems
    rw [List.find?_cons_of_pos _ (by simpa using hpred)]
    have ht : truthy (SVal.vstr body) = true := by simpa [truthy] using hb
    simp [ht, show ¬ _process_section_name "Syntax" = "parameters" by decide]
  refine ⟨?_, ?_, ?_, ?_⟩
  · have hrest : renderSections (rtfSectionItems [(k, SVal.vstr body)])
        ["Parameters", "Key Features and Functionalities", "Usage Examples", "Return Values",
         "Error Handling", "Version History", "Summary"] = .ok [] := by
      apply renderSections_all_skip
      intro s hs
      apply hrtfSkip
      fin_cases hs <;> decide
    have hAll : renderSections (rtfSectionItems [(k, SVal.vstr body)]) SECTION_ORDER
        = .ok (([.heading "Syntax"] ++ rtfParas (SVal.vstr body)) ++ []) := by
      show renderSections _ ("Overview" :: "Syntax" :: _) = _
      rw [renderSections_cons_skip _ _ _ (hrtfSkip "Overview" (by decide))]
      exact renderSections_cons_emit _ _ _ _ _ hrtfSyn hrest
    unfold _create_rtf
    rw [hAll]
    simp
  · have hAll : ∀ s ∈ SECTION_ORDER, pdfSectionItems [(k, SVal.vstr body)] s = .ok [] :=
      fun s hs => pdfSection_skip _ s (hkeyFalse s hs)
    unfold _create_pdf
    rw [renderSections_all_skip _ _ hAll]
  · have hAll : ∀ s ∈ SECTION_ORDER, pptxSectionItems [(k, SVal.vstr body)] s = .ok [] :=
      fun s hs => pptxSection_skip _ s (hkeyFalse s hs)
    unfold create_presentation
    rw [renderSections_all_skip _ _ hAll]
  · have hko : pyLookup [(k, SVal.vstr body)] "Overview" = none :=
      hlook "Overview" (by decide)
    unfold _create_html getKey
    rw [hko]
    rfl

/-- C3 witness: the amended theorem applied at the concrete key
`syntax:` with a non-empty body. -/
theorem c3_witness :
    _process_section_name "syntax:" = "syntax" ∧ ("syntax:" : String) ≠ "Syntax" ∧
      ("x" : String) ≠ "" ∧
      _create_rtf [("syntax:", SVal.vstr "x")]
        = .ok ([.title, .heading "Syntax"] ++ rtfParas (SVal.vstr "x")) :=
  ⟨by decide, by decide, by decide,
   (c3_only_rtf_tolerant "syntax:" "x" (by decide) (by decide) (by decide)).1⟩

/-! ## C7: parameter-table rendering and malformed rows -/

theorem fillRows_exact (n : Nat) (r : List (List String)) (h : ∀ row ∈ r, row.length = n) :
    fillRows n r = .ok r := by
  induction r with
  | nil => rfl
  | cons row rest ih =>
    have hr := h row (by simp)
    unfold fillRows
    rw [if_neg (by simp [hr])]
    rw [ih fun x hx => h x (by simp [hx])]
    simp [hr]

/-- C7 counterexample: the claim says every target format renders a
well-formed Parameters table, and that a malformed row (length differing
from the header length) is rejected before rendering and never silently
padded.  Both halves fail: a 2-entry row under 3 headers is not
rejected — the editable-document renderer silently pads it with an
empty cell and the HTML parameters-table builder emits the short row
as-is with mismatched cell counts — and even a perfectly well-formed
3-by-1 table does not render in the PDF format, whose table style holds
the unknown commands WORDWRAP and ROWHEIGHTS that the PDF library
rejects with a ValueError. -/
theorem c7_counterexample :
    _create_rtf [("Parameters",
        SVal.vtable ["Parameter", "Default", "Description"] [["a", "b"]])]
      = Except.ok [RItem.title, RItem.heading "Parameters",
          RItem.tableItem [["Parameter", "Default", "Description"], ["a", "b", ""]]] ∧
    create_parameters_table
        (SVal.vtable ["Parameter", "Default", "Description"] [["a", "b"]])
      = "<table class=\"table table-bordered\">\n        <thead><tr><th>Parameter</th><th>Default</th><th>Description</th></tr></thead><tbody><tr><td>a</td><td>b</td></tr></tbody></table>" ∧
    _create_pdf [("Parameters",
        SVal.vtable ["Parameter", "Default", "Description"] [["x", "None", "d"]])]
      = Except.error "Unknown cell style" :=
  ⟨rfl, rfl, rfl⟩

/-- C7 amended: a Parameters table whose rows all match the header
length renders in the editable-document and slide-deck formats as a
header row plus one row per parameter with matching column counts, but
the PDF renderer raises on every truthy Parameters table — well-formed
or not — because its table style includes the unknown commands WORDWRAP
and ROWHEIGHTS; and malformed rows are not rejected before rendering —
short rows are silently padded with empty cells by the table fillers
(see the counterexample) and the HTML builder emits mismatched counts. -/
theorem c7_wellformed_tables (hs : List String) (rs : List (List String))
    (hlen : ∀ row ∈ rs, row.length = hs.length) :
    _create_rtf [("Parameters", SVal.vtable hs rs)]
        = .ok [.title, .heading "Parameters", .tableItem (hs :: rs)] ∧
    create_presentation [("Parameters", SVal.vtable hs rs)]
        = .ok [.title, .heading "Parameters", .tableItem (hs :: rs)] ∧
    _create_pdf [("Parameters", SVal.vtable hs rs)]
        = .error "Unknown cell style" := by
  have hlookP : pyLookup [("Parameters", SVal.vtable hs rs)] "Parameters"
      = some (SVal.vtable hs rs) := by
    simp [pyLookup]
  have hlookOther : ∀ sect : String, sect ≠ "Parameters" →
      pyLookup [("Parameters", SVal.vtable hs rs)] sect = none := by
    intro s hne
    simp [pyLookup, Ne.symm hne]
  have hkeyF : ∀ sect : String, sect ≠ "Parameters" →
      truthyKey [("Parameters", SVal.vtable hs rs)] sect = false := by
    intro s hne
    unfold truthyKey
    rw [hlookOther s hne]
  have hrtfSkip : ∀ sect ∈ SECTION_ORDER, sect ≠ "Parameters" →
      rtfSectionItems [("Parameters", SVal.vtable hs rs)] sect = .ok [] := by
    intro sect hmem hne
    have hfalse : ¬ (_process_section_name "Parameters" = _process_section_name sect) := by
      intro hh
      exact hne (sect_norm_inj "Parameters" (by decide) sect hmem hh).symm
    unfold rtfSectionItems
    rw [List.find?_cons_of_neg _ (by simpa using hfalse), List.find?_nil]
  have hrtfPar : rtfSectionItems [("Parameters", SVal.vtable hs rs)] "Parameters"
      = .ok [.heading "Parameters", .tableItem (hs :: rs)] := by
    unfold rtfSectionItems
    rw [List.find?_cons_of_pos _ (by simp)]
    simp [truthy, show _process_section_name "Parameters" = "parameters" by decide,
      fillRows_exact hs.length rs hlen]
  have hpptxPar : pptxSectionItems [("Parameters", SVal.vtable hs rs)] "Parameters"
      = .ok [.heading "Parameters", .tableItem (hs :: rs)] := by
    unfold pptxSectionItems
    rw [hlookP]
    simp [truthy, fillRows_exact hs.length rs hlen]
  have hpdfPar : pdfSectionItems [("Parameters", SVal.vtable hs rs)] "Parameters"
      = .error "Unknown cell style" := by
    unfold pdfSectionItems
    rw [hlookP]
    simp [truthy]
  refine ⟨?_, ?_, ?_⟩
  · have hrest : renderSections (rtfSectionItems [("Parameters", SVal.vtable hs rs)])
        ["Key Features and Functionalities", "Usage Examples", "Return Values",
         "Error Handling", "Version History", "Summary"] = .ok [] := by
      apply renderSections_all_skip
      intro s hsm
      apply hrtfSkip s ?_ ?_ <;> fin_cases hsm <;> decide
    have hAll : renderSections (rtfSectionItems [("Parameters", SVal.vtable hs rs)])
        SECTION_ORDER = .ok ([.heading "Parameters", .tableItem (hs :: rs)] ++ []) := by
      show renderSections _ ("Overview" :: "Syntax" :: "Parameters" :: _) = _
      rw [renderSections_cons_skip _ _ _ (hrtfSkip "Overview" (by decide) (by decide)),
        renderSections_cons_skip _ _ _ (hrtfSkip "Syntax" (by decide) (by decide))]
      exact renderSections_cons_emit _ _ _ _ _ hrtfPar hrest
    unfold _create_rtf
    rw [hAll]
    simp
  · have hrest : renderSections (pptxSectionItems [("Parameters", SVal.vtable hs rs)])
        ["Key Features and Functionalities", "Usage Examples", "Return Values",
         "Error Handling", "Version History", "Summary"] = .ok [] := by
      apply renderSections_all_skip
      intro s hsm
      apply pptxSection_skip
      apply hkeyF
      fin_cases hsm <;> decide
    have hAll : renderSections (pptxSectionItems [("Parameters", SVal.vtable hs rs)])
        SECTION_ORDER = .ok ([.heading "Parameters", .tableItem (hs :: rs)] ++ []) := by
      show renderSections _ ("Overview" :: "Syntax" :: "Parameters" :: _) = _
      rw [renderSections_cons_skip _ _ _ (pptxSection_skip _ _ (hkeyF "Overview" (by decide))),
        renderSections_cons_skip _ _ _ (pptxSection_skip _ _ (hkeyF "Syntax" (by decide)))]
      exact renderSections_cons_emit _ _ _ _ _ hpptxPar hrest
    unfold create_presentation
    rw [hAll]
    simp
  · have hAll : renderSections (pdfSectionItems [("Parameters", SVal.vtable hs rs)])
        SECTION_ORDER = .error "Unknown cell style" := by
      show renderSections _ ("Overview" :: "Syntax" :: "Parameters" :: _) = _
      rw [renderSections_cons_skip _ _ _ (pdfSection_skip _ _ (hkeyF "Overview" (by decide))),
        renderSections_cons_skip _ _ _ (pdfSection_skip _ _ (hkeyF "Syntax" (by decide)))]
      exact renderSections_cons_error _ _ _ _ hpdfPar
    unfold _create_pdf
    rw [hAll]

/-- C7 witness: the amended theorem applied at a concrete well-formed
3-column table with one row. -/
theorem c7_witness :
    (∀ row ∈ [["x", "None", "d"]],
        List.length row = (["Parameter", "Default", "Description"] : List String).length) ∧
      _create_rtf [("Parameters",
          SVal.vtable ["Parameter", "Default", "Description"] [["x", "None", "d"]])]
        = .ok [.title, .heading "Parameters",
            .tableItem [["Parameter", "Default", "Description"], ["x", "None", "d"]]] :=
  ⟨by decide,
   (c7_wellformed_tables ["Parameter", "Default", "Description"] [["x", "None", "d"]]
      (by decide)).1⟩

end SASAutodoc
